import Mathlib

/-!
Verification development for the `parse_ppt` repository.

The development shallowly embeds the two Python source modules:

* `app/tools/json_to_md.py` — a JSON-to-Markdown batch converter
  (`_escape_md`, `_join`, `json_to_markdown`, `main`);
* `app/api/convert.py` — FastAPI conversion endpoints
  (`_run_pptx2md_cli`, `_zip_directory`, `convert_ppt_to_markdown`,
  `convert_with_markitdown`, `convert_with_pandoc`,
  `convert_with_pptx_to_md`, `convert_with_aspose`).

Python strings are modelled as Lean `String` (a wrapper around
`List Char`, matching CPython code-point semantics); Python `dict`
objects decoded from JSON are modelled by the inductive type `JVal`.
External processes and libraries are modelled as explicit parameters
(a function from a command line to a result, or an already-computed
library outcome), and the filesystem as an explicit tree value.
-/

/-- JSON values as decoded by Python's `json.loads`: strings, integers,
booleans, null, lists and string-keyed objects.  (Float literals play no
role in any behaviour verified here; numbers are modelled as integers.) -/
inductive JVal where
  | str (s : String)
  | num (n : Int)
  | bool (b : Bool)
  | null
  | list (xs : List JVal)
  | obj (fields : List (String × JVal))

/-- Tests whether a `JVal` is a Python `dict` (`isinstance(item, dict)`). -/
def JVal.isObj : JVal → Bool
  | .obj _ => true
  | _ => false

/-- Python truthiness (`bool(x)`) for decoded JSON values: `None`, `False`,
`0`, `""`, `[]` and `{}` are falsy, everything else truthy. -/
def pyTruthy : JVal → Bool
  | .null => false
  | .bool b => b
  | .num n => n != 0
  | .str s => s != ""
  | .list xs => !xs.isEmpty
  | .obj fs => !fs.isEmpty

/-- Python `a or b` on decoded JSON values: `a` if truthy, else `b`. -/
def pyOr (a b : JVal) : JVal :=
  if pyTruthy a then a else b

/-- Python `d.get(k)` on a decoded JSON object: the first binding of `k`,
or `None` when absent (and on non-dict receivers, which do not occur in
the source). -/
def jGet (v : JVal) (k : String) : JVal :=
  match v with
  | .obj fs => (fs.lookup k).getD .null
  | _ => .null

/-- Python `d.get(k, default)` on a decoded JSON object. -/
def jGetD (v : JVal) (k : String) (d : JVal) : JVal :=
  match v with
  | .obj fs => (fs.lookup k).getD d
  | _ => d

/-- Single-quote character, kept out of literals for lexical hygiene. -/
def squote : Char := Char.ofNat 39

/-- Models Python `repr` of a `str` restricted to printable characters:
the string is quoted with a single quote (or a double quote when the text
contains a single quote but no double quote) and the backslash, the chosen
quote, and the ASCII control characters `\n`, `\r`, `\t` are
backslash-escaped. -/
def pyReprStrChars (s : List Char) : List Char :=
  let q := if s.contains squote && !(s.contains '"') then '"' else squote
  [q] ++
    (s.flatMap fun c =>
      if c = '\\' || c = q then ['\\', c]
      else if c = '\n' then ['\\', 'n']
      else if c = '\r' then ['\\', 'r']
      else if c = '\t' then ['\\', 't']
      else [c]) ++ [q]

mutual

/-- Models Python `repr` for decoded JSON values (used by `str` on
containers): `repr` of scalars, bracketed comma-joined element reprs for
lists, braced `key: value` pairs for dicts. -/
def pyRepr : JVal → String
  | .str s => ⟨pyReprStrChars s.data⟩
  | .num n => toString n
  | .bool b => if b then "True" else "False"
  | .null => "None"
  | .list xs => "[" ++ String.intercalate ", " (pyReprElems xs) ++ "]"
  | .obj fs => "\x7b" ++ String.intercalate ", " (pyReprFields fs) ++ "\x7d"

/-- Reprs of the elements of a decoded JSON list. -/
def pyReprElems : List JVal → List String
  | [] => []
  | x :: xs => pyRepr x :: pyReprElems xs

/-- Reprs of the `key: value` pairs of a decoded JSON object. -/
def pyReprFields : List (String × JVal) → List String
  | [] => []
  | (k, v) :: fs => (String.mk (pyReprStrChars k.data) ++ ": " ++ pyRepr v) :: pyReprFields fs

end

/-- Models Python `str(x)` on decoded JSON values: identity on strings,
decimal rendering of integers, `True`/`False`/`None` for the remaining
scalars, and `repr` for containers. -/
def pyStr : JVal → String
  | .str s => s
  | .num n => toString n
  | .bool b => if b then "True" else "False"
  | .null => "None"
  | v => pyRepr v

/-- Python `str.replace(old, new)` for a single-character pattern:
every occurrence of the character `c` is replaced by `r`. -/
def replaceChar (c : Char) (r : List Char) (s : List Char) : List Char :=
  s.flatMap fun x => if x = c then r else [x]

/-- Embeds `_escape_md` (json_to_md.py lines 10-20) on character lists.
The source chains seven `str.replace` calls; note that the replacement
written for the backtick is the Python literal `"\``"`, i.e. BACKSLASH,
BACKTICK, BACKTICK (the backslash survives because `\` followed by a
backtick is not a recognized escape sequence). -/
def escape_md (s : List Char) : List Char :=
  let s1 := replaceChar '\\' ['\\', '\\'] s
  let s2 := replaceChar '`' ['\\', '`', '`'] s1
  let s3 := replaceChar '*' ['\\', '*'] s2
  let s4 := replaceChar '_' ['\\', '_'] s3
  let s5 := replaceChar '[' ['\\', '['] s4
  let s6 := replaceChar ']' ['\\', ']'] s5
  replaceChar '#' ['\\', '#'] s6

/-- String-level wrapper of `escape_md`. -/
def escapeMdS (s : String) : String :=
  ⟨escape_md s.data⟩

/-- The Markdown-significant characters the specification says are
backslash-escaped by `_escape_md`. -/
def mdSpecialChars : List Char := ['\\', '`', '*', '_', '[', ']', '#']

/-- Scans a character list left to right; a backslash escapes the
character right after it; returns `true` when some Markdown-significant
character occurs outside such an escape pair (a trailing lone backslash
counts, being itself an unescaped special character). -/
def hasUnescapedSpecial : List Char → Bool
  | [] => false
  | c :: rest =>
    if c = '\\' then
      match rest with
      | [] => true
      | _ :: rest2 => hasUnescapedSpecial rest2
    else if mdSpecialChars.contains c then true
    else hasUnescapedSpecial rest

/-- Embeds `_join` (json_to_md.py lines 23-24): comma-space join of the
truthy (non-empty) strings. -/
def pyJoin (values : List String) : String :=
  String.intercalate ", " (values.filter fun v => v != "")

/-- Models Python `str.lower` restricted to ASCII letters (the only
case-insensitive comparisons exercised by the source are on subject
labels; non-ASCII code points are kept as-is in this model). -/
def pyLower (s : String) : String :=
  ⟨s.data.map Char.toLower⟩

/-- Models the ASCII part of Python's `str.strip()` whitespace set. -/
def pyIsSpace (c : Char) : Bool :=
  c = ' ' || c = '\t' || c = '\n' || c = '\r' || c = Char.ofNat 11 || c = Char.ofNat 12

/-- Right-strip on character lists (Python `str.rstrip()`). -/
def rstripL (l : List Char) : List Char :=
  (l.reverse.dropWhile pyIsSpace).reverse

/-- Python `str.rstrip()`. -/
def pyRstrip (s : String) : String :=
  ⟨rstripL s.data⟩

/-- Python `"\n".join(lines)`. -/
def joinLines : List String → String
  | [] => ""
  | [l] => l
  | l :: rest => l ++ "\n" ++ joinLines rest

/-- Embeds `title = str(item.get("Tiêu đề", "(Không tiêu đề)"))`
(json_to_md.py line 49). -/
def titleOf (item : JVal) : String :=
  pyStr (jGetD item "Tiêu đề" (.str "(Không tiêu đề)"))

/-- Embeds `code = str(item.get("Mã", ""))` (json_to_md.py line 50). -/
def codeOf (item : JVal) : String :=
  pyStr (jGetD item "Mã" (.str ""))

/-- Embeds `desc = str(item.get("Mô tả", ""))` (json_to_md.py line 51). -/
def descOf (item : JVal) : String :=
  pyStr (jGetD item "Mô tả" (.str ""))

/-- Embeds `hashtags = item.get("Hashtag") or []` (json_to_md.py line 52). -/
def hashtagsOf (item : JVal) : JVal :=
  pyOr (jGet item "Hashtag") (.list [])

/-- Embeds the `hashtag_str` computation (json_to_md.py lines 53-56). -/
def hashtagStrOf (item : JVal) : String :=
  match hashtagsOf item with
  | .list xs => pyJoin (xs.map pyStr)
  | v => pyStr v

/-- Embeds `id_course = str(item.get("id_course", ""))`
(json_to_md.py line 57). -/
def idCourseOf (item : JVal) : String :=
  pyStr (jGetD item "id_course" (.str ""))

/-- Embeds `fields = item.get("Lĩnh vực(Optional)") or item.get("Lĩnh vực")
or []` (json_to_md.py line 59). -/
def fieldsOf (item : JVal) : JVal :=
  pyOr (jGet item "Lĩnh vực(Optional)") (pyOr (jGet item "Lĩnh vực") (.list []))

/-- Embeds the `vn_names` accumulation (json_to_md.py lines 60-68):
for each dict in `fields`, the stringified truthy `FIELD_OF_STUDY_NAME`. -/
def vnNamesOf (item : JVal) : List String :=
  match fieldsOf item with
  | .list fs =>
    fs.filterMap fun f =>
      match f with
      | .obj _ =>
        if pyTruthy (jGet f "FIELD_OF_STUDY_NAME") then
          some (pyStr (jGet f "FIELD_OF_STUDY_NAME"))
        else none
      | _ => none
  | _ => []

/-- Embeds the `en_names` accumulation (json_to_md.py lines 60-70):
for each dict in `fields`, the stringified truthy `FIELD_OF_STUDY_NAME_EN`. -/
def enNamesOf (item : JVal) : List String :=
  match fieldsOf item with
  | .list fs =>
    fs.filterMap fun f =>
      match f with
      | .obj _ =>
        if pyTruthy (jGet f "FIELD_OF_STUDY_NAME_EN") then
          some (pyStr (jGet f "FIELD_OF_STUDY_NAME_EN"))
        else none
      | _ => none
  | _ => []

/-- Top-level bullet for one record (json_to_md.py line 73). -/
def titleLine (item : JVal) : String :=
  "- " ++ escapeMdS (titleOf item)

/-- Sub-bullet for the identifier code (json_to_md.py line 77). -/
def idLine (item : JVal) : String :=
  "  - ID: " ++ escapeMdS (codeOf item)

/-- Sub-bullet for the description (json_to_md.py line 79). -/
def descLine (item : JVal) : String :=
  "  - Mô tả: " ++ escapeMdS (descOf item)

/-- Sub-bullet for the joined hashtag list (json_to_md.py line 81). -/
def hashtagLine (item : JVal) : String :=
  "  - Hashtag: " ++ escapeMdS (hashtagStrOf item)

/-- Sub-bullet for the course id, rendered as inline code
(json_to_md.py line 83). -/
def idCourseLine (item : JVal) : String :=
  "  - id_course: `" ++ escapeMdS (idCourseOf item) ++ "`"

/-- Sub-bullet for the joined Vietnamese field-of-study names
(json_to_md.py line 85). -/
def vnLine (item : JVal) : String :=
  "  - Lĩnh vực: " ++ escapeMdS (pyJoin (vnNamesOf item))

/-- Sub-bullet for the joined English field-of-study names
(json_to_md.py line 87). -/
def enLine (item : JVal) : String :=
  "  - Lĩnh vực (EN): " ++ escapeMdS (pyJoin (enNamesOf item))

/-- Lines emitted for one record (json_to_md.py lines 48-87): the
top-level title bullet followed by up to six conditionally-present
sub-bullets, each guarded by the truthiness test the source applies. -/
def recordLines (item : JVal) : List String :=
  [titleLine item]
  ++ (if codeOf item != "" then [idLine item] else [])
  ++ (if descOf item != "" then [descLine item] else [])
  ++ (if pyTruthy (hashtagsOf item) then [hashtagLine item] else [])
  ++ (if idCourseOf item != "" then [idCourseLine item] else [])
  ++ (if !(vnNamesOf item).isEmpty then [vnLine item] else [])
  ++ (if !(enNamesOf item).isEmpty then [enLine item] else [])

/-- Embeds `subject = str(item.get("Môn học", "Khác"))`
(json_to_md.py line 37). -/
def subjectOf (item : JVal) : String :=
  pyStr (jGetD item "Môn học" (.str "Khác"))

/-- One `defaultdict(list)` update: appends `v` to the group of key `k`,
creating the group at the end (insertion order) when the key is new. -/
def addToGroup (gs : List (String × List JVal)) (k : String) (v : JVal) :
    List (String × List JVal) :=
  match gs with
  | [] => [(k, [v])]
  | (k2, vs) :: rest =>
    if k2 = k then (k2, vs ++ [v]) :: rest else (k2, vs) :: addToGroup rest k v

/-- Embeds the grouping loop of `json_to_markdown` (json_to_md.py
lines 34-38): dict items are appended to their subject's group, other
items are skipped. -/
def groupLoop : List JVal → List (String × List JVal) → List (String × List JVal)
  | [], gs => gs
  | item :: rest, gs =>
    groupLoop rest (if item.isObj then addToGroup gs (subjectOf item) item else gs)

/-- The `by_subject` mapping built by `json_to_markdown`, as an
insertion-ordered association list. -/
def groupBySubject (data : List JVal) : List (String × List JVal) :=
  groupLoop data []

/-- Python `by_subject[subject]`: the contents of a group. -/
def groupContents (gs : List (String × List JVal)) (s : String) : List JVal :=
  (gs.lookup s).getD []

/-- Lexicographic comparison of character lists by code point, the
order Python uses to compare `str` values. -/
def lexLe : List Char → List Char → Bool
  | [], _ => true
  | _ :: _, [] => false
  | a :: as, b :: bs => if a < b then true else if b < a then false else lexLe as bs

/-- The key ordering used by `sorted(by_subject.keys(), key=lambda s:
s.lower())`: lexicographic comparison of lowercased labels. -/
def subjLe (a b : String) : Prop :=
  lexLe (pyLower a).data (pyLower b).data = true

instance : DecidableRel subjLe :=
  fun a b => inferInstanceAs (Decidable (lexLe (pyLower a).data (pyLower b).data = true))

/-- Embeds `sorted(by_subject.keys(), key=lambda s: s.lower())`
(json_to_md.py line 44): Python's sort is stable, and a stable sort is
unique, so the stable `List.insertionSort` renders it faithfully. -/
def sortedSubjects (data : List JVal) : List String :=
  List.insertionSort subjLe ((groupBySubject data).map Prod.fst)

/-- Lines emitted for one subject group (json_to_md.py lines 45-89):
the group heading, a blank line, each record's lines in stored order,
then a closing blank line. -/
def groupLines (subject : String) (items : List JVal) : List String :=
  ("## Môn học: " ++ escapeMdS subject) :: "" :: (items.flatMap recordLines ++ [""])

/-- Embeds `message = str(obj.get("message") or obj.get("Message") or
"Danh sách Video")` (json_to_md.py line 28). -/
def messageOf (obj : JVal) : String :=
  pyStr (pyOr (jGet obj "message") (pyOr (jGet obj "Message") (.str "Danh sách Video")))

/-- Embeds `json_to_markdown` (json_to_md.py lines 27-91): heading from
the message field, a blank line, the subject groups in case-insensitively
sorted key order, joined with newlines, right-stripped, plus one final
newline.  A non-list `data` field raises `ValueError("JSON missing 'data'
list")`, modelled as the `.error` branch carrying the message. -/
def json_to_markdown (obj : JVal) : Except String String :=
  match jGet obj "data" with
  | .list data =>
    let lines := ("# " ++ escapeMdS (messageOf obj)) :: "" ::
      (sortedSubjects data).flatMap
        (fun s => groupLines s (groupContents (groupBySubject data) s))
    .ok (pyRstrip (joinLines lines) ++ "\n")
  | _ => .error "JSON missing 'data' list"

/-- Failure modes of `main` (json_to_md.py lines 94-115), one constructor
per distinct exception site: missing input file (`SystemExit`), a JSON
parse failure (`json.JSONDecodeError` from `json.loads`), a non-object
top level (`SystemExit`), and the `ValueError` raised by
`json_to_markdown`. -/
inductive MainErr where
  | inputNotFound (path : String)
  | jsonDecodeError (msg : String)
  | topLevelNotObject
  | valueError (msg : String)
deriving DecidableEq

/-- Embeds the `main` pipeline of json_to_md.py (lines 94-115) after
argument parsing: the existence check on the input path, JSON decoding
(modelled as an already-computed `Except`, since `json.loads` is the
standard library), the top-level-object check, and the conversion.  A
successful run returns the Markdown text that is written to the output
path. -/
def mainPipeline (inputExists : Bool) (inputPath : String)
    (parsed : Except String JVal) : Except MainErr String :=
  if !inputExists then .error (.inputNotFound inputPath)
  else
    match parsed with
    | .error m => .error (.jsonDecodeError m)
    | .ok obj =>
      match obj with
      | .obj _ =>
        match json_to_markdown obj with
        | .ok md => .ok md
        | .error m => .error (.valueError m)
      | _ => .error .topLevelNotObject

/-- Splits a character list on a separator character; models Python
`str.split(sep)` (so `splitOnChar c []` is `[[]]`). -/
def splitOnChar (c : Char) : List Char → List (List Char)
  | [] => [[]]
  | x :: xs =>
    let r := splitOnChar c xs
    if x = c then [] :: r
    else
      match r with
      | [] => [[x]]
      | h :: t => (x :: h) :: t

/-- Models `pathlib.PurePosixPath(p).name`: the last non-empty
slash-separated component. -/
def pathName (p : String) : String :=
  ⟨((((splitOnChar '/' p.data).filter fun s => !s.isEmpty).getLast?).getD [])⟩

/-- Models `pathlib.Path(p).suffix`: the final dot-led extension of the
name, empty when the only dot is leading or trailing or absent. -/
def pathSuffix (p : String) : String :=
  let n := (pathName p).data
  match n.reverse.findIdx? fun c => c = '.' with
  | none => ""
  | some r =>
    let i := n.length - 1 - r
    if 0 < i ∧ i < n.length - 1 then ⟨n.drop i⟩ else ""

/-- Models `pathlib.Path(p).stem`: the name with its suffix removed. -/
def pathStem (p : String) : String :=
  let n := (pathName p).data
  ⟨n.take (n.length - (pathSuffix p).data.length)⟩

/-- Embeds `filename = file.filename or "upload.pptx"` (convert.py
line 77 and the analogous line of every endpoint): a missing or empty
(falsy) filename is replaced by the default. -/
def effectiveFilename : Option String → String
  | none => "upload.pptx"
  | some s => if s = "" then "upload.pptx" else s

/-- The extensions every endpoint accepts, lowercased
(`{".pptx", ".ppt"}` in convert.py). -/
def allowedSuffixes : List String := [".pptx", ".ppt"]

/-- A Python exception as observed by the endpoints' handlers.  Each
constructor carries the text `str(e)` would produce; a
`subprocess.CalledProcessError` additionally carries the captured
`stderr` and `stdout` of the failed process. -/
inductive PyExc where
  | fileNotFound (msg : String)
  | calledProcessError (stderr stdout msg : String)
  | other (msg : String)
deriving DecidableEq

/-- Python `str(e)` on a modelled exception. -/
def excStr : PyExc → String
  | .fileNotFound m => m
  | .calledProcessError _ _ m => m
  | .other m => m

/-- Python `a or b` on strings: `a` when non-empty, else `b`. -/
def pyOrStr (a b : String) : String :=
  if a != "" then a else b

/-- Python `str.strip()` (ASCII whitespace model): both ends stripped. -/
def pyStrip (s : String) : String :=
  ⟨rstripL (s.data.dropWhile pyIsSpace)⟩

/-- The behaviour of an external process launcher: each command line
either runs to success or raises an exception. -/
def RunProc : Type := List String → Except PyExc Unit

/-- Embeds the candidate loop of `_run_pptx2md_cli` (convert.py
lines 36-52): candidates are attempted in order; the first success
returns immediately; a failure is remembered in `last_err` and the next
candidate is tried; when the list is exhausted the remembered failure
(if any) is raised. -/
def runCandidatesGo (run : RunProc) :
    List (List String) → Option PyExc → Except PyExc Unit
  | [], none => .ok ()
  | [], some e => .error e
  | c :: rest, acc =>
    match run c with
    | .ok _ => .ok ()
    | .error e => runCandidatesGo run rest (some e)

/-- The fixed ordered candidate command lines of `_run_pptx2md_cli`
(convert.py lines 29-34). -/
def pptx2mdCandidates (pythonExe inputPath outputMd : String) : List (List String) :=
  [["pptx2md", inputPath, "-o", outputMd],
   ["pptx2md", "-f", inputPath, "-o", outputMd],
   ["pptx2md", "--input", inputPath, "--output", outputMd],
   [pythonExe, "-m", "pptx2md", inputPath, "-o", outputMd]]

/-- Embeds `_run_pptx2md_cli` (convert.py lines 23-52). -/
def run_pptx2md_cli (run : RunProc) (pythonExe inputPath outputMd : String) :
    Except PyExc Unit :=
  runCandidatesGo run (pptx2mdCandidates pythonExe inputPath outputMd) none

/-- Embeds the `last_err` loop shared by the pandoc endpoint
(convert.py lines 209-216) and the pptx_to_md CLI fallback (lines
286-293): each failure overwrites `last_err`, a success resets it to
`None` and breaks; the final value of `last_err` is returned. -/
def lastErrLoop (run : RunProc) : List (List String) → Option PyExc
  | [] => none
  | c :: rest =>
    match run c with
    | .ok _ => none
    | .error e =>
      match rest with
      | [] => some e
      | _ :: _ => lastErrLoop run rest

mutual

/-- A directory tree as seen by `os.walk`: regular files with byte
contents, and directories with a listing in `os.scandir` order. -/
inductive FsTree where
  | file (content : List Nat)
  | dir (children : FsEntries)

/-- A directory listing: named entries in listing order. -/
inductive FsEntries where
  | nil
  | cons (name : String) (tree : FsTree) (rest : FsEntries)

end

/-- Membership of a named entry in a directory listing. -/
inductive EntryMem : String → FsTree → FsEntries → Prop where
  | head {n t rest} : EntryMem n t (.cons n t rest)
  | tail {n t m u rest} : EntryMem n t rest → EntryMem n t (.cons m u rest)

/-- Specification-side predicate: `p` is the relative segment path of a
regular file under the tree. -/
inductive IsRegFile : FsTree → List String → Prop where
  | here {cs n b} : EntryMem n (.file b) cs → IsRegFile (.dir cs) [n]
  | there {cs n sub p} :
      EntryMem n (.dir sub) cs → IsRegFile (.dir sub) p →
      IsRegFile (.dir cs) (n :: p)

/-- The regular files directly inside a listing, in listing order
(the `files` component `os.walk` yields for the current root). -/
def rootFiles : FsEntries → List (List String × List Nat)
  | .nil => []
  | .cons n (.file b) rest => ([n], b) :: rootFiles rest
  | .cons _ (.dir _) rest => rootFiles rest

mutual

/-- Embeds the traversal of `_zip_directory` (convert.py lines 60-64):
`os.walk` yields the current root's files first, then walks each
subdirectory in listing order; every yielded file is recorded under its
relative segment path. -/
def collectFiles : FsTree → List (List String × List Nat)
  | .file _ => []
  | .dir cs => rootFiles cs ++ collectSub cs

/-- Walks the subdirectories of a listing in order, prefixing each
collected path with the subdirectory name. -/
def collectSub : FsEntries → List (List String × List Nat)
  | .nil => []
  | .cons _ (.file _) rest => collectSub rest
  | .cons n (.dir cs) rest =>
    (collectFiles (.dir cs)).map (fun pb => (n :: pb.1, pb.2)) ++ collectSub rest

end

/-- The compression method recorded in the archive
(`zipfile.ZIP_DEFLATED` in convert.py line 59). -/
inductive Compression where
  | deflated
  | stored
deriving DecidableEq

/-- An in-memory ZIP archive: the compression method and the entries in
write order, each entry a forward-slash-joined relative path with the
file bytes. -/
structure ZipArchive where
  compression : Compression
  entries : List (String × List Nat)
deriving DecidableEq

/-- Embeds `_zip_directory` (convert.py lines 55-66): a deflate
archive whose entries are the walked files, with `arcname.as_posix()`
rendered as a forward-slash join of the relative segments. -/
def zip_directory (t : FsTree) : ZipArchive :=
  { compression := .deflated,
    entries := (collectFiles t).map fun pb => (String.intercalate "/" pb.1, pb.2) }

/-- A filesystem access performed by the service. -/
inductive FsOp where
  | createTempDir
  | mkdirOutput (path : String)
  | writeFile (path : String)
  | readFile (path : String)
deriving DecidableEq

/-- Tests whether an access is a read. -/
def FsOp.isRead : FsOp → Bool
  | .readFile _ => true
  | _ => false

/-- The accesses `_zip_directory` performs: one read per walked file
(`zf.write` reads the source file; the archive itself lives in an
in-memory buffer). -/
def zipReads (t : FsTree) : List FsOp :=
  (collectFiles t).map fun pb => .readFile (String.intercalate "/" pb.1)

/-- The archive together with the trace of filesystem accesses the
archiving step performs. -/
def zipDirectoryTrace (t : FsTree) : ZipArchive × List FsOp :=
  (zip_directory t, zipReads t)

/-- An HTTP error response (`fastapi.HTTPException`). -/
structure HTTPError where
  status : Nat
  detail : String
deriving DecidableEq

/-- A successful streaming ZIP response. -/
structure ZipResponse where
  mediaType : String
  disposition : String
  archive : ZipArchive
deriving DecidableEq

/-- The 400 raised by every endpoint on a bad extension (convert.py
line 80 and analogues). -/
def badExtensionError : HTTPError :=
  ⟨400, "Only .ppt or .pptx files are supported"⟩

/-- Staged upload path `tmpdir_path / filename`. -/
def inputPathOf (tmpdir filename : String) : String :=
  tmpdir ++ "/" ++ filename

/-- Output directory `OUTPUT_BASE / stem`. -/
def outputDirOf (outputBase filename : String) : String :=
  outputBase ++ "/" ++ pathStem filename

/-- Output Markdown path `output_dir / f"(stem).md"`. -/
def outputMdOf (outputBase filename : String) : String :=
  outputDirOf outputBase filename ++ "/" ++ pathStem filename ++ ".md"

/-- The streaming response every endpoint returns on success
(media type `application/zip`, `Content-Disposition` naming
`conversion_<stem>.zip`, body from `_zip_directory`). -/
def zipResponse (stem : String) (t : FsTree) : ZipResponse :=
  ⟨"application/zip", "attachment; filename=conversion_" ++ stem ++ ".zip",
    zip_directory t⟩

/-- Embeds the `POST /convert` handler `convert_ppt_to_markdown`
(convert.py lines 74-119).  The external CLI is the `run` parameter;
`outputTree` is the state of the output directory at archive time.  The
second component records the filesystem accesses in program order. -/
def convert_ppt_to_markdown (filename? : Option String)
    (tmpdir outputBase pythonExe : String) (run : RunProc) (outputTree : FsTree) :
    Except HTTPError ZipResponse × List FsOp :=
  let filename := effectiveFilename filename?
  let suffix := pyLower (pathSuffix filename)
  if !(allowedSuffixes.contains suffix) then
    (.error badExtensionError, [])
  else
    let inputPath := inputPathOf tmpdir filename
    let stem := pathStem filename
    let outputDir := outputDirOf outputBase filename
    let outputMd := outputMdOf outputBase filename
    let ops := [FsOp.createTempDir, .mkdirOutput outputDir, .writeFile inputPath]
    match run_pptx2md_cli run pythonExe inputPath outputMd with
    | .error (.fileNotFound _) =>
      (.error ⟨500,
        "pptx2md executable not found. Ensure 'pptx2md' is installed. Try: uv add pptx2md"⟩,
       ops)
    | .error (.calledProcessError stderr stdout msg) =>
      (.error ⟨500,
        "pptx2md failed: " ++ pyOrStr (pyStrip stderr) (pyOrStr (pyStrip stdout) msg)⟩,
       ops)
    | .error (.other msg) =>
      (.error ⟨500, "Conversion error: " ++ msg⟩, ops)
    | .ok _ =>
      (.ok (zipResponse stem outputTree), ops ++ zipReads outputTree)

/-- Embeds the `POST /convert/pptx2md` handler (convert.py lines
122-124), a pure delegation to `convert_ppt_to_markdown`. -/
def convert_with_pptx2md (filename? : Option String)
    (tmpdir outputBase pythonExe : String) (run : RunProc) (outputTree : FsTree) :
    Except HTTPError ZipResponse × List FsOp :=
  convert_ppt_to_markdown filename? tmpdir outputBase pythonExe run outputTree

/-- Embeds the `POST /convert/markitdown` handler (convert.py lines
127-183).  `importOk` is whether `import markitdown` succeeds;
`convertResult` is the outcome of the in-process conversion together
with the duck-typed text extraction (text on success, the caught
exception otherwise — including the `RuntimeError` raised when no
shape matches). -/
def convert_with_markitdown (filename? : Option String) (importOk : Bool)
    (tmpdir outputBase : String) (convertResult : Except PyExc String)
    (outputTree : FsTree) : Except HTTPError ZipResponse × List FsOp :=
  let filename := effectiveFilename filename?
  let suffix := pyLower (pathSuffix filename)
  if !(allowedSuffixes.contains suffix) then
    (.error badExtensionError, [])
  else if !importOk then
    (.error ⟨500, "Missing dependency: markitdown. Install with: uv add markitdown"⟩, [])
  else
    let inputPath := inputPathOf tmpdir filename
    let stem := pathStem filename
    let outputDir := outputDirOf outputBase filename
    let outputMd := outputMdOf outputBase filename
    let ops := [FsOp.createTempDir, .writeFile inputPath, .mkdirOutput outputDir]
    match convertResult with
    | .error e =>
      (.error ⟨500, "markitdown failed: " ++ excStr e⟩, ops)
    | .ok _ =>
      (.ok (zipResponse stem outputTree),
       ops ++ [.writeFile outputMd] ++ zipReads outputTree)

/-- The two candidate pandoc command lines (convert.py lines 205-208). -/
def pandocCandidates (inputPath outputMd : String) : List (List String) :=
  [["pandoc", inputPath, "-t", "gfm", "-o", outputMd],
   ["pandoc", "-f", "pptx", inputPath, "-t", "gfm", "-o", outputMd]]

/-- Embeds the `POST /convert/pandoc` handler (convert.py lines
186-231). -/
def convert_with_pandoc (filename? : Option String)
    (tmpdir outputBase : String) (run : RunProc) (outputTree : FsTree) :
    Except HTTPError ZipResponse × List FsOp :=
  let filename := effectiveFilename filename?
  let suffix := pyLower (pathSuffix filename)
  if !(allowedSuffixes.contains suffix) then
    (.error badExtensionError, [])
  else
    let inputPath := inputPathOf tmpdir filename
    let stem := pathStem filename
    let outputDir := outputDirOf outputBase filename
    let outputMd := outputMdOf outputBase filename
    let ops := [FsOp.createTempDir, .writeFile inputPath, .mkdirOutput outputDir]
    match lastErrLoop run (pandocCandidates inputPath outputMd) with
    | some e =>
      (.error ⟨500,
        "pandoc failed or not installed: " ++ excStr e ++ ". Install pandoc and try again."⟩,
       ops)
    | none =>
      (.ok (zipResponse stem outputTree), ops ++ zipReads outputTree)

/-- The two candidate pptx_to_md command lines (convert.py lines
282-285). -/
def pptxToMdCandidates (pythonExe inputPath outputMd : String) : List (List String) :=
  [["pptx_to_md", inputPath, "-o", outputMd],
   [pythonExe, "-m", "pptx_to_md", inputPath, "-o", outputMd]]

/-- Embeds the `POST /convert/pptx_to_md` handler (convert.py lines
234-307).  The in-process probing of the external `pptx_to_md` module
(lines 253-278) is modelled by its two observable outcomes: the
extracted text (written to the output file when present) and the
recorded error `err` (which in the source is non-`None` whenever no
text was extracted, because a `RuntimeError` is raised and caught).
When `err` is set the CLI fallback loop runs; its total failure yields
the fixed 500 message of lines 294-300. -/
def convert_with_pptx_to_md (filename? : Option String)
    (tmpdir outputBase pythonExe : String)
    (inProcessText : Option String) (inProcessErr : Option PyExc)
    (run : RunProc) (outputTree : FsTree) :
    Except HTTPError ZipResponse × List FsOp :=
  let filename := effectiveFilename filename?
  let suffix := pyLower (pathSuffix filename)
  if !(allowedSuffixes.contains suffix) then
    (.error badExtensionError, [])
  else
    let inputPath := inputPathOf tmpdir filename
    let stem := pathStem filename
    let outputDir := outputDirOf outputBase filename
    let outputMd := outputMdOf outputBase filename
    let ops := [FsOp.createTempDir, .writeFile inputPath, .mkdirOutput outputDir]
      ++ (match inProcessText with
          | some _ => [FsOp.writeFile outputMd]
          | none => [])
    match inProcessErr with
    | none =>
      (.ok (zipResponse stem outputTree), ops ++ zipReads outputTree)
    | some _ =>
      match lastErrLoop run (pptxToMdCandidates pythonExe inputPath outputMd) with
      | some _ =>
        (.error ⟨500,
          "pptx_to_md not installed or failed. Install the library/CLI and try again."⟩,
         ops)
      | none =>
        (.ok (zipResponse stem outputTree), ops ++ zipReads outputTree)

/-- Embeds the `POST /convert/aspose` handler (convert.py lines
310-369).  `importOk` is whether `import aspose.slides` succeeds;
`saveResult` is the outcome of the presentation load, Markdown export
and output-file normalization block (lines 338-361), whose writes land
in `outputTree`. -/
def convert_with_aspose (filename? : Option String) (importOk : Bool)
    (tmpdir outputBase : String) (saveResult : Except PyExc Unit)
    (outputTree : FsTree) : Except HTTPError ZipResponse × List FsOp :=
  let filename := effectiveFilename filename?
  let suffix := pyLower (pathSuffix filename)
  if !(allowedSuffixes.contains suffix) then
    (.error badExtensionError, [])
  else if !importOk then
    (.error ⟨500,
      "Missing dependency: aspose.slides. Install and license it to use this endpoint."⟩, [])
  else
    let inputPath := inputPathOf tmpdir filename
    let stem := pathStem filename
    let outputDir := outputDirOf outputBase filename
    let ops := [FsOp.createTempDir, .writeFile inputPath, .mkdirOutput outputDir]
    match saveResult with
    | .error e =>
      (.error ⟨500, "Aspose conversion failed: " ++ excStr e⟩, ops)
    | .ok _ =>
      (.ok (zipResponse stem outputTree), ops ++ zipReads outputTree)

/-- A stub launcher for the witness: the second pptx2md candidate (the
only five-token candidate when the python executable is `"py"`) succeeds
and every other command fails. -/
def stubRunSecondOk : RunProc :=
  fun cmd => if cmd = ["pptx2md", "-f", "in.pptx", "-o", "out.md"]
             then .ok () else .error (.other "boom")

/-- A stub launcher for the witness: every command fails with `lastE`. -/
def stubRunAllFail : RunProc :=
  fun _ => .error (.other "last failure")

/-- Whether `pat` occurs as a contiguous segment of `l` (substring
containment on character lists). -/
def containsSeg (pat : List Char) : List Char → Bool
  | [] => pat.isEmpty
  | c :: tl => pat.isPrefixOf (c :: tl) || containsSeg pat tl

/-! ## Theorems -/

example : escape_md ['`'] = ['\\', '`', '`'] := by decide

example : hasUnescapedSpecial (escape_md ['`']) = true := by decide

example : hasUnescapedSpecial (escape_md ['a', '#', '*']) = false := by decide

example : escapeMdS "a_b" = "a\\_b" := by decide

theorem lexLe_total (a b : List Char) : lexLe a b = true ∨ lexLe b a = true := by
  induction a generalizing b with
  | nil => exact Or.inl rfl
  | cons x xs ih =>
    cases b with
    | nil => exact Or.inr rfl
    | cons y ys =>
      rcases lt_trichotomy x y with h | h | h
      · exact Or.inl (by simp [lexLe, h])
      · subst h
        rcases ih ys with h2 | h2
        · exact Or.inl (by simp [lexLe, h2])
        · exact Or.inr (by simp [lexLe, h2])
      · exact Or.inr (by simp [lexLe, h])

theorem lexLe_trans :
    ∀ a b c : List Char, lexLe a b = true → lexLe b c = true → lexLe a c = true := by
  intro a
  induction a with
  | nil => intro b c _ _; rfl
  | cons x xs ih =>
    intro b c hab hbc
    cases b with
    | nil => simp [lexLe] at hab
    | cons y ys =>
      cases c with
      | nil => simp [lexLe] at hbc
      | cons z zs =>
        rcases lt_trichotomy x y with hxy | hxy | hxy
        · rcases lt_trichotomy y z with hyz | hyz | hyz
          · simp [lexLe, lt_trans hxy hyz]
          · subst hyz; simp [lexLe, hxy]
          · simp [lexLe, hyz, not_lt_of_lt hyz] at hbc
        · subst hxy
          rcases lt_trichotomy x z with hyz | hyz | hyz
          · simp [lexLe, hyz]
          · subst hyz
            simp only [lexLe, if_neg (lt_irrefl x)] at hab hbc ⊢
            exact ih ys zs hab hbc
          · simp [lexLe, hyz, not_lt_of_lt hyz] at hbc
        · simp [lexLe, hxy, not_lt_of_lt hxy] at hab

instance : IsTotal String subjLe :=
  ⟨fun a b => lexLe_total (pyLower a).data (pyLower b).data⟩

instance : IsTrans String subjLe :=
  ⟨fun _ _ _ h1 h2 => lexLe_trans _ _ _ h1 h2⟩

example : json_to_markdown (.obj [("data", .list [])]) = .ok "# Danh sách Video\n" := rfl

example : json_to_markdown (.obj []) = .error "JSON missing 'data' list" := rfl

example :
    json_to_markdown (.obj [("message", .str "M"),
      ("data", .list [
        .obj [("Môn học", .str "Văn"), ("Tiêu đề", .str "B")],
        .num 42,
        .obj [("Tiêu đề", .str "A"), ("Mã", .str "x1")]])]) =
      .ok "# M\n\n## Môn học: Khác\n\n- A\n  - ID: x1\n\n## Môn học: Văn\n\n- B\n" := rfl

example : pathSuffix "slides.PPTX" = ".PPTX" := by decide

example : pathSuffix "archive.tar.gz" = ".gz" := by decide

example : pathSuffix ".pptx" = "" := by decide

example : pathSuffix "upload.pptx" = ".pptx" := by decide

example : pathStem "upload.pptx" = "upload" := by decide

example : pathStem "dir/deck.ppt" = "deck" := by decide

example :
    zip_directory (.dir (.cons "a.md" (.file [1])
      (.cons "img" (.dir (.cons "b.png" (.file [2]) .nil)) .nil))) =
      { compression := .deflated,
        entries := [("a.md", [1]), ("img/b.png", [2])] } := by decide

/-- C1 (code bug exhibit): `_escape_md` maps a lone backtick to
BACKSLASH-BACKTICK-BACKTICK, so its output still contains an unescaped
Markdown-significant character, contradicting the specified escaping
contract; every other special character is escaped correctly, as the
companion computation on the remaining six characters shows. -/
theorem c1_escape_md_backtick_bug :
    escape_md ['`'] = ['\\', '`', '`'] ∧
    hasUnescapedSpecial (escape_md ['`']) = true ∧
    hasUnescapedSpecial (escape_md ['\\', '*', '_', '[', ']', '#']) = false := by
  refine ⟨by decide, by decide, by decide⟩

theorem runCandidatesGo_first_success (run : RunProc) :
    ∀ (pre : List (List String)) (c : List String) (post : List (List String))
      (acc : Option PyExc),
      (∀ d ∈ pre, ∃ e, run d = .error e) → run c = .ok () →
      runCandidatesGo run (pre ++ c :: post) acc = .ok () := by
  intro pre
  induction pre with
  | nil =>
    intro c post acc _ hc
    simp [runCandidatesGo, hc]
  | cons d ds ih =>
    intro c post acc hpre hc
    obtain ⟨e, he⟩ := hpre d (by simp)
    simpa [runCandidatesGo, he] using
      ih c post (some e) (fun d2 hd2 => hpre d2 (by simp [hd2])) hc

/-- C3: for the fixed ordered candidate list of `_run_pptx2md_cli`,
(1) whenever the candidates before some candidate `c` all fail and `c`
succeeds, the invoker returns success, and the result is the same for
any launcher behaving identically on the attempted prefix (the
candidates after `c` are never attempted); (2) when all four candidates
fail, the invoker raises the failure of the last candidate attempted. -/
theorem c3_run_pptx2md_cli_fallback (run : RunProc) (px ip om : String) :
    (∀ (pre : List (List String)) (c : List String) (post : List (List String)),
        pptx2mdCandidates px ip om = pre ++ c :: post →
        (∀ d ∈ pre, ∃ e, run d = .error e) → run c = .ok () →
        run_pptx2md_cli run px ip om = .ok () ∧
          ∀ run2 : RunProc, (∀ d ∈ pre, run2 d = run d) → run2 c = .ok () →
            run_pptx2md_cli run2 px ip om = .ok ()) ∧
    (∀ e0 e1 e2 e3 : PyExc,
        run ["pptx2md", ip, "-o", om] = .error e0 →
        run ["pptx2md", "-f", ip, "-o", om] = .error e1 →
        run ["pptx2md", "--input", ip, "--output", om] = .error e2 →
        run [px, "-m", "pptx2md", ip, "-o", om] = .error e3 →
        run_pptx2md_cli run px ip om = .error e3) := by
  constructor
  · intro pre c post hsplit hpre hc
    constructor
    · rw [run_pptx2md_cli, hsplit]
      exact runCandidatesGo_first_success run pre c post none hpre hc
    · intro run2 hagree hc2
      rw [run_pptx2md_cli, hsplit]
      refine runCandidatesGo_first_success run2 pre c post none ?_ hc2
      intro d hd
      obtain ⟨e, he⟩ := hpre d hd
      exact ⟨e, by rw [hagree d hd, he]⟩
  · intro e0 e1 e2 e3 h0 h1 h2 h3
    simp [run_pptx2md_cli, pptx2mdCandidates, runCandidatesGo, h0, h1, h2, h3]

theorem c3_run_pptx2md_cli_fallback_witness :
    run_pptx2md_cli stubRunSecondOk "py" "in.pptx" "out.md" = .ok () ∧
    run_pptx2md_cli stubRunAllFail "py" "in.pptx" "out.md" = .error (.other "last failure") := by
  constructor
  · exact ((c3_run_pptx2md_cli_fallback stubRunSecondOk "py" "in.pptx" "out.md").1
      [["pptx2md", "in.pptx", "-o", "out.md"]]
      ["pptx2md", "-f", "in.pptx", "-o", "out.md"]
      [["pptx2md", "--input", "in.pptx", "--output", "out.md"],
       ["py", "-m", "pptx2md", "in.pptx", "-o", "out.md"]]
      rfl
      (by intro d hd; refine ⟨.other "boom", ?_⟩; simp at hd; subst hd; rfl)
      rfl).1
  · exact (c3_run_pptx2md_cli_fallback stubRunAllFail "py" "in.pptx" "out.md").2
      (.other "last failure") (.other "last failure") (.other "last failure")
      (.other "last failure") rfl rfl rfl rfl

theorem allowed_contains_true {s : String} (h : s ∈ allowedSuffixes) :
    allowedSuffixes.contains s = true :=
  List.elem_eq_true_of_mem h

theorem allowed_contains_false {s : String} (h : s ∉ allowedSuffixes) :
    allowedSuffixes.contains s = false := by
  simpa using h

/-- C2 counterexample: the upload with the empty filename has extension
`""`, which is not an accepted extension, yet the primary endpoint does
not return a 400: the default name `upload.pptx` is substituted, the
conversion proceeds (here with an always-succeeding launcher) and
filesystem operations are performed. -/
theorem c2_empty_filename_not_rejected :
    pyLower (pathSuffix "") ∉ allowedSuffixes ∧
    (convert_ppt_to_markdown (some "") "tmp" "out" "py" (fun _ => .ok ()) (.dir .nil)).1 =
      .ok (zipResponse "upload" (.dir .nil)) ∧
    (convert_ppt_to_markdown (some "") "tmp" "out" "py" (fun _ => .ok ()) (.dir .nil)).2 ≠ [] := by
  refine ⟨by decide, rfl, by decide⟩

/-- C2 (amended): for every upload that supplies a non-empty filename
whose extension, lowercased, is not `.ppt` or `.pptx`, each of the six
conversion endpoints returns the 400 bad-extension error having
performed no filesystem operation. -/
theorem c2_invalid_extension_rejected_before_fs (s : String) (hs : s ≠ "")
    (hsuf : pyLower (pathSuffix s) ∉ allowedSuffixes) :
    (∀ tmp base px run tree,
        convert_ppt_to_markdown (some s) tmp base px run tree =
          (.error badExtensionError, [])) ∧
    (∀ tmp base px run tree,
        convert_with_pptx2md (some s) tmp base px run tree =
          (.error badExtensionError, [])) ∧
    (∀ imp tmp base res tree,
        convert_with_markitdown (some s) imp tmp base res tree =
          (.error badExtensionError, [])) ∧
    (∀ tmp base run tree,
        convert_with_pandoc (some s) tmp base run tree =
          (.error badExtensionError, [])) ∧
    (∀ tmp base px t e run tree,
        convert_with_pptx_to_md (some s) tmp base px t e run tree =
          (.error badExtensionError, [])) ∧
    (∀ imp tmp base save tree,
        convert_with_aspose (some s) imp tmp base save tree =
          (.error badExtensionError, [])) := by
  have hf : effectiveFilename (some s) = "upload.pptx" ∨ effectiveFilename (some s) = s := by
    simp [effectiveFilename, hs]
  have hf2 : effectiveFilename (some s) = s := by
    simp [effectiveFilename, hs]
  have hc : allowedSuffixes.contains (pyLower (pathSuffix s)) = false :=
    allowed_contains_false hsuf
  refine ⟨?_, ?_, ?_, ?_, ?_, ?_⟩ <;>
    intro fs <;>
    simp [convert_ppt_to_markdown, convert_with_pptx2md, convert_with_markitdown,
      convert_with_pandoc, convert_with_pptx_to_md, convert_with_aspose, hf2, hc, hsuf]

theorem c2_invalid_extension_rejected_before_fs_witness :
    convert_ppt_to_markdown (some "notes.txt") "tmp" "out" "py"
        (fun _ => .ok ()) (.dir .nil) = (.error badExtensionError, []) :=
  (c2_invalid_extension_rejected_before_fs "notes.txt" (by decide) (by decide)).1
    "tmp" "out" "py" (fun _ => .ok ()) (.dir .nil)

theorem convert_ppt_error_status (f? : Option String)
    (hv : allowedSuffixes.contains (pyLower (pathSuffix (effectiveFilename f?))) = true)
    (tmp base px : String) (run : RunProc) (tree : FsTree) (err : HTTPError)
    (h : (convert_ppt_to_markdown f? tmp base px run tree).1 = .error err) :
    err.status = 500 := by
  simp only [convert_ppt_to_markdown, hv, Bool.not_true, Bool.false_eq_true, if_false] at h
  split at h <;> simp_all <;> simp [← h]

theorem convert_ppt_mkdir_op (f? : Option String)
    (hv : allowedSuffixes.contains (pyLower (pathSuffix (effectiveFilename f?))) = true)
    (tmp base px : String) (run : RunProc) (tree : FsTree) :
    FsOp.mkdirOutput (outputDirOf base (effectiveFilename f?)) ∈
      (convert_ppt_to_markdown f? tmp base px run tree).2 := by
  simp only [convert_ppt_to_markdown, hv, Bool.not_true, Bool.false_eq_true, if_false]
  split <;> simp

theorem convert_markitdown_error_status (f? : Option String)
    (hv : allowedSuffixes.contains (pyLower (pathSuffix (effectiveFilename f?))) = true)
    (imp : Bool) (tmp base : String) (res : Except PyExc String) (tree : FsTree)
    (err : HTTPError)
    (h : (convert_with_markitdown f? imp tmp base res tree).1 = .error err) :
    err.status = 500 := by
  simp only [convert_with_markitdown, hv, Bool.not_true, Bool.false_eq_true, if_false] at h
  cases imp with
  | false => simp at h; simp [← h]
  | true =>
    simp only [Bool.not_true, Bool.false_eq_true, if_false] at h
    split at h <;> simp_all <;> simp [← h]

theorem convert_pandoc_error_status (f? : Option String)
    (hv : allowedSuffixes.contains (pyLower (pathSuffix (effectiveFilename f?))) = true)
    (tmp base : String) (run : RunProc) (tree : FsTree) (err : HTTPError)
    (h : (convert_with_pandoc f? tmp base run tree).1 = .error err) :
    err.status = 500 := by
  simp only [convert_with_pandoc, hv, Bool.not_true, Bool.false_eq_true, if_false] at h
  split at h <;> simp_all <;> simp [← h]

theorem convert_pptx_to_md_error_status (f? : Option String)
    (hv : allowedSuffixes.contains (pyLower (pathSuffix (effectiveFilename f?))) = true)
    (tmp base px : String) (t : Option String) (e : Option PyExc)
    (run : RunProc) (tree : FsTree) (err : HTTPError)
    (h : (convert_with_pptx_to_md f? tmp base px t e run tree).1 = .error err) :
    err.status = 500 := by
  simp only [convert_with_pptx_to_md, hv, Bool.not_true, Bool.false_eq_true, if_false] at h
  split at h <;> try simp_all
  split at h <;> simp_all <;> simp [← h]

theorem convert_aspose_error_status (f? : Option String)
    (hv : allowedSuffixes.contains (pyLower (pathSuffix (effectiveFilename f?))) = true)
    (imp : Bool) (tmp base : String) (save : Except PyExc Unit) (tree : FsTree)
    (err : HTTPError)
    (h : (convert_with_aspose f? imp tmp base save tree).1 = .error err) :
    err.status = 500 := by
  simp only [convert_with_aspose, hv, Bool.not_true, Bool.false_eq_true, if_false] at h
  cases imp with
  | false => simp at h; simp [← h]
  | true =>
    simp only [Bool.not_true, Bool.false_eq_true, if_false] at h
    split at h <;> simp_all <;> simp [← h]

/-- C9: a missing or empty upload filename is replaced by the default
`upload.pptx`, whose lowercased extension passes validation, so no
endpoint ever answers 400 for such an upload (every error it can return
carries status 500); the upload is processed with output-directory stem
`upload` (the primary endpoint creates `OUTPUT_BASE/upload`). -/
theorem c9_default_filename (f? : Option String) (h : f? = none ∨ f? = some "") :
    effectiveFilename f? = "upload.pptx" ∧
    pyLower (pathSuffix (effectiveFilename f?)) ∈ allowedSuffixes ∧
    pathStem (effectiveFilename f?) = "upload" ∧
    (∀ tmp base px run tree err,
        (convert_ppt_to_markdown f? tmp base px run tree).1 = .error err →
        err.status = 500) ∧
    (∀ tmp base px run tree,
        FsOp.mkdirOutput (outputDirOf base "upload.pptx") ∈
          (convert_ppt_to_markdown f? tmp base px run tree).2) ∧
    (∀ tmp base px run tree err,
        (convert_with_pptx2md f? tmp base px run tree).1 = .error err →
        err.status = 500) ∧
    (∀ imp tmp base res tree err,
        (convert_with_markitdown f? imp tmp base res tree).1 = .error err →
        err.status = 500) ∧
    (∀ tmp base run tree err,
        (convert_with_pandoc f? tmp base run tree).1 = .error err →
        err.status = 500) ∧
    (∀ tmp base px t e run tree err,
        (convert_with_pptx_to_md f? tmp base px t e run tree).1 = .error err →
        err.status = 500) ∧
    (∀ imp tmp base save tree err,
        (convert_with_aspose f? imp tmp base save tree).1 = .error err →
        err.status = 500) := by
  have heff : effectiveFilename f? = "upload.pptx" := by
    rcases h with h | h <;> subst h <;> rfl
  have hv : allowedSuffixes.contains (pyLower (pathSuffix (effectiveFilename f?))) = true := by
    rw [heff]; decide
  refine ⟨heff, by rw [heff]; decide, by rw [heff]; decide, ?_, ?_, ?_, ?_, ?_, ?_, ?_⟩
  · intro tmp base px run tree err hh
    exact convert_ppt_error_status f? hv tmp base px run tree err hh
  · intro tmp base px run tree
    have := convert_ppt_mkdir_op f? hv tmp base px run tree
    rwa [heff] at this
  · intro tmp base px run tree err hh
    exact convert_ppt_error_status f? hv tmp base px run tree err hh
  · intro imp tmp base res tree err hh
    exact convert_markitdown_error_status f? hv imp tmp base res tree err hh
  · intro tmp base run tree err hh
    exact convert_pandoc_error_status f? hv tmp base run tree err hh
  · intro tmp base px t e run tree err hh
    exact convert_pptx_to_md_error_status f? hv tmp base px t e run tree err hh
  · intro imp tmp base save tree err hh
    exact convert_aspose_error_status f? hv imp tmp base save tree err hh

theorem c9_default_filename_witness :
    effectiveFilename none = "upload.pptx" ∧
    FsOp.mkdirOutput (outputDirOf "out" "upload.pptx") ∈
      (convert_ppt_to_markdown none "tmp" "out" "py"
        (fun _ => .error (.other "no backend")) (.dir .nil)).2 := by
  have h := c9_default_filename none (Or.inl rfl)
  exact ⟨h.1, h.2.2.2.2.1 "tmp" "out" "py" (fun _ => .error (.other "no backend")) (.dir .nil)⟩

/-- C6 counterexample: a pptx_to_md conversion whose in-process path
fails and whose CLI fallback fails with captured stderr `boom` produces
the endpoint's fixed 500 message, which does not embed the diagnostic
`boom` (nor the stdout or exception text) at all. -/
theorem c6_pptx_to_md_fixed_detail_counterexample :
    (convert_with_pptx_to_md (some "deck.pptx") "tmp" "out" "py" none
        (some (.other "probe failed"))
        (fun _ => .error (.calledProcessError "boom" "" "Command failed")) (.dir .nil)).1 =
      .error ⟨500, "pptx_to_md not installed or failed. Install the library/CLI and try again."⟩ ∧
    containsSeg "boom".data
      "pptx_to_md not installed or failed. Install the library/CLI and try again.".data = false := by
  refine ⟨rfl, by decide⟩

/-- C6 (amended): failures of classes (b)-(d) all surface as 500, but
the verbatim stderr-preferring diagnostic embedding holds only for the
primary endpoint's backend execution failure; the primary endpoint's
missing-executable case, the markitdown and aspose missing-dependency
cases and the pptx_to_md total failure answer fixed messages, while the
pandoc and aspose execution failures and markitdown conversion failures
embed the exception's text. -/
theorem c6_failure_surfacing :
    (∀ f? tmp base px run tree serr sout m,
        allowedSuffixes.contains (pyLower (pathSuffix (effectiveFilename f?))) = true →
        run_pptx2md_cli run px (inputPathOf tmp (effectiveFilename f?))
            (outputMdOf base (effectiveFilename f?)) =
          .error (.calledProcessError serr sout m) →
        (convert_ppt_to_markdown f? tmp base px run tree).1 =
          .error ⟨500,
            "pptx2md failed: " ++ pyOrStr (pyStrip serr) (pyOrStr (pyStrip sout) m)⟩) ∧
    (∀ f? tmp base px run tree m,
        allowedSuffixes.contains (pyLower (pathSuffix (effectiveFilename f?))) = true →
        run_pptx2md_cli run px (inputPathOf tmp (effectiveFilename f?))
            (outputMdOf base (effectiveFilename f?)) = .error (.fileNotFound m) →
        (convert_ppt_to_markdown f? tmp base px run tree).1 =
          .error ⟨500,
            "pptx2md executable not found. Ensure 'pptx2md' is installed. Try: uv add pptx2md"⟩) ∧
    (∀ f? tmp base res tree,
        allowedSuffixes.contains (pyLower (pathSuffix (effectiveFilename f?))) = true →
        (convert_with_markitdown f? false tmp base res tree).1 =
          .error ⟨500, "Missing dependency: markitdown. Install with: uv add markitdown"⟩) ∧
    (∀ f? tmp base tree e,
        allowedSuffixes.contains (pyLower (pathSuffix (effectiveFilename f?))) = true →
        (convert_with_markitdown f? true tmp base (.error e) tree).1 =
          .error ⟨500, "markitdown failed: " ++ excStr e⟩) ∧
    (∀ f? tmp base run tree e,
        allowedSuffixes.contains (pyLower (pathSuffix (effectiveFilename f?))) = true →
        lastErrLoop run (pandocCandidates (inputPathOf tmp (effectiveFilename f?))
            (outputMdOf base (effectiveFilename f?))) = some e →
        (convert_with_pandoc f? tmp base run tree).1 =
          .error ⟨500,
            "pandoc failed or not installed: " ++ excStr e ++ ". Install pandoc and try again."⟩) ∧
    (∀ f? tmp base px t run tree e e2,
        allowedSuffixes.contains (pyLower (pathSuffix (effectiveFilename f?))) = true →
        lastErrLoop run (pptxToMdCandidates px (inputPathOf tmp (effectiveFilename f?))
            (outputMdOf base (effectiveFilename f?))) = some e2 →
        (convert_with_pptx_to_md f? tmp base px t (some e) run tree).1 =
          .error ⟨500,
            "pptx_to_md not installed or failed. Install the library/CLI and try again."⟩) ∧
    (∀ f? tmp base save tree,
        allowedSuffixes.contains (pyLower (pathSuffix (effectiveFilename f?))) = true →
        (convert_with_aspose f? false tmp base save tree).1 =
          .error ⟨500,
            "Missing dependency: aspose.slides. Install and license it to use this endpoint."⟩) ∧
    (∀ f? tmp base tree e,
        allowedSuffixes.contains (pyLower (pathSuffix (effectiveFilename f?))) = true →
        (convert_with_aspose f? true tmp base (.error e) tree).1 =
          .error ⟨500, "Aspose conversion failed: " ++ excStr e⟩) := by
  refine ⟨?_, ?_, ?_, ?_, ?_, ?_, ?_, ?_⟩
  · intro f? tmp base px run tree serr sout m hv hrun
    have hmem : pyLower (pathSuffix (effectiveFilename f?)) ∈ allowedSuffixes := by simpa using hv
    simp [convert_ppt_to_markdown, hmem, hrun]
  · intro f? tmp base px run tree m hv hrun
    have hmem : pyLower (pathSuffix (effectiveFilename f?)) ∈ allowedSuffixes := by simpa using hv
    simp [convert_ppt_to_markdown, hmem, hrun]
  · intro f? tmp base res tree hv
    have hmem : pyLower (pathSuffix (effectiveFilename f?)) ∈ allowedSuffixes := by simpa using hv
    simp [convert_with_markitdown, hmem]
  · intro f? tmp base tree e hv
    have hmem : pyLower (pathSuffix (effectiveFilename f?)) ∈ allowedSuffixes := by simpa using hv
    simp [convert_with_markitdown, hmem]
  · intro f? tmp base run tree e hv hloop
    have hmem : pyLower (pathSuffix (effectiveFilename f?)) ∈ allowedSuffixes := by simpa using hv
    simp [convert_with_pandoc, hmem, hloop]
  · intro f? tmp base px t run tree e e2 hv hloop
    have hmem : pyLower (pathSuffix (effectiveFilename f?)) ∈ allowedSuffixes := by simpa using hv
    simp [convert_with_pptx_to_md, hmem, hloop]
  · intro f? tmp base save tree hv
    have hmem : pyLower (pathSuffix (effectiveFilename f?)) ∈ allowedSuffixes := by simpa using hv
    simp [convert_with_aspose, hmem]
  · intro f? tmp base tree e hv
    have hmem : pyLower (pathSuffix (effectiveFilename f?)) ∈ allowedSuffixes := by simpa using hv
    simp [convert_with_aspose, hmem]

theorem c6_failure_surfacing_witness :
    (convert_ppt_to_markdown (some "a.pptx") "tmp" "out" "py"
        (fun _ => .error (.calledProcessError "  boom\n" "" "cmd failed")) (.dir .nil)).1 =
      .error ⟨500, "pptx2md failed: boom"⟩ ∧
    (convert_with_markitdown (some "a.pptx") false "tmp" "out"
        (.ok "text") (.dir .nil)).1 =
      .error ⟨500, "Missing dependency: markitdown. Install with: uv add markitdown"⟩ ∧
    (convert_with_pandoc (some "a.pptx") "tmp" "out"
        (fun _ => .error (.other "exec format error")) (.dir .nil)).1 =
      .error ⟨500,
        "pandoc failed or not installed: exec format error. Install pandoc and try again."⟩ ∧
    (convert_with_aspose (some "a.pptx") true "tmp" "out"
        (.error (.other "bad license")) (.dir .nil)).1 =
      .error ⟨500, "Aspose conversion failed: bad license"⟩ := by
  refine ⟨?_, ?_, ?_, ?_⟩
  · have h := (c6_failure_surfacing).1 (some "a.pptx") "tmp" "out" "py"
      (fun _ => .error (.calledProcessError "  boom\n" "" "cmd failed")) (.dir .nil)
      "  boom\n" "" "cmd failed" (by decide) rfl
    simpa [pyStrip, pyOrStr, rstripL] using h
  · exact (c6_failure_surfacing).2.2.1 (some "a.pptx") "tmp" "out" (.ok "text") (.dir .nil)
      (by decide)
  · exact (c6_failure_surfacing).2.2.2.2.1 (some "a.pptx") "tmp" "out"
      (fun _ => .error (.other "exec format error")) (.dir .nil) (.other "exec format error")
      (by decide) rfl
  · exact (c6_failure_surfacing).2.2.2.2.2.2.2 (some "a.pptx") "tmp" "out" (.dir .nil)
      (.other "bad license") (by decide)

theorem rootFiles_mem : ∀ (cs : FsEntries) (p : List String),
    (∃ b, (p, b) ∈ rootFiles cs) ↔ ∃ n b, p = [n] ∧ EntryMem n (.file b) cs
  | .nil, p => by
    constructor
    · rintro ⟨b, hb⟩
      simp [rootFiles] at hb
    · rintro ⟨n, b, rfl, hm⟩
      cases hm
  | .cons n (.file b0) rest, p => by
    constructor
    · rintro ⟨b, hb⟩
      simp only [rootFiles, List.mem_cons] at hb
      rcases hb with hb | hb
      · obtain ⟨h1, h2⟩ := Prod.mk.injEq .. ▸ hb
        exact ⟨n, b0, by simp_all, by rw [show b0 = b from by simp_all] at *; exact EntryMem.head⟩
      · obtain ⟨m, b2, rfl, hm⟩ := (rootFiles_mem rest p).mp ⟨b, hb⟩
        exact ⟨m, b2, rfl, EntryMem.tail hm⟩
    · rintro ⟨m, b2, rfl, hm⟩
      cases hm with
      | head => exact ⟨b0, by simp [rootFiles]⟩
      | tail hm2 =>
        obtain ⟨b, hb⟩ := (rootFiles_mem rest [m]).mpr ⟨m, b2, rfl, hm2⟩
        exact ⟨b, by simp [rootFiles, hb]⟩
  | .cons n (.dir cs2) rest, p => by
    constructor
    · rintro ⟨b, hb⟩
      simp only [rootFiles] at hb
      obtain ⟨m, b2, rfl, hm⟩ := (rootFiles_mem rest p).mp ⟨b, hb⟩
      exact ⟨m, b2, rfl, EntryMem.tail hm⟩
    · rintro ⟨m, b2, rfl, hm⟩
      cases hm with
      | tail hm2 =>
        obtain ⟨b, hb⟩ := (rootFiles_mem rest [m]).mpr ⟨m, b2, rfl, hm2⟩
        exact ⟨b, by simp [rootFiles, hb]⟩

mutual

theorem collectFiles_mem : ∀ (t : FsTree) (p : List String),
    (∃ b, (p, b) ∈ collectFiles t) ↔ IsRegFile t p
  | .file _, p => by
    constructor
    · rintro ⟨b, hb⟩
      simp [collectFiles] at hb
    · intro h
      nomatch h
  | .dir cs, p => by
    constructor
    · rintro ⟨b, hb⟩
      rw [collectFiles] at hb
      rcases List.mem_append.mp hb with hb | hb
      · obtain ⟨n, b2, rfl, hm⟩ := (rootFiles_mem cs p).mp ⟨b, hb⟩
        exact IsRegFile.here hm
      · obtain ⟨n, q, sub, rfl, hm, hreg⟩ := (collectSub_mem cs p).mp ⟨b, hb⟩
        exact IsRegFile.there hm hreg
    · intro h
      cases h with
      | here hm =>
        obtain ⟨b, hb⟩ := (rootFiles_mem cs _).mpr ⟨_, _, rfl, hm⟩
        exact ⟨b, by rw [collectFiles]; exact List.mem_append.mpr (Or.inl hb)⟩
      | there hm hreg =>
        obtain ⟨b, hb⟩ := (collectSub_mem cs _).mpr ⟨_, _, _, rfl, hm, hreg⟩
        exact ⟨b, by rw [collectFiles]; exact List.mem_append.mpr (Or.inr hb)⟩

theorem collectSub_mem : ∀ (cs : FsEntries) (p : List String),
    (∃ b, (p, b) ∈ collectSub cs) ↔
      ∃ n q sub, p = n :: q ∧ EntryMem n (.dir sub) cs ∧ IsRegFile (.dir sub) q
  | .nil, p => by
    constructor
    · rintro ⟨b, hb⟩
      simp [collectSub] at hb
    · rintro ⟨n, q, sub, rfl, hm, _⟩
      cases hm
  | .cons n (.file b0) rest, p => by
    constructor
    · rintro ⟨b, hb⟩
      rw [collectSub] at hb
      obtain ⟨m, q, sub, rfl, hm, hreg⟩ := (collectSub_mem rest p).mp ⟨b, hb⟩
      exact ⟨m, q, sub, rfl, EntryMem.tail hm, hreg⟩
    · rintro ⟨m, q, sub, rfl, hm, hreg⟩
      cases hm with
      | tail hm2 =>
        obtain ⟨b, hb⟩ := (collectSub_mem rest (m :: q)).mpr ⟨m, q, sub, rfl, hm2, hreg⟩
        exact ⟨b, by rw [collectSub]; exact hb⟩
  | .cons n (.dir cs2) rest, p => by
    constructor
    · rintro ⟨b, hb⟩
      rw [collectSub] at hb
      rcases List.mem_append.mp hb with hb | hb
      · obtain ⟨pb, hpb, hEq⟩ := List.mem_map.mp hb
        obtain ⟨h1, h2⟩ := Prod.mk.injEq .. ▸ hEq
        have hq : (pb.1, pb.2) ∈ collectFiles (.dir cs2) := hpb
        have hreg : IsRegFile (.dir cs2) pb.1 := (collectFiles_mem (.dir cs2) pb.1).mp ⟨pb.2, hq⟩
        exact ⟨n, pb.1, cs2, h1.symm, EntryMem.head, hreg⟩
      · obtain ⟨m, q, sub, rfl, hm, hreg⟩ := (collectSub_mem rest p).mp ⟨b, hb⟩
        exact ⟨m, q, sub, rfl, EntryMem.tail hm, hreg⟩
    · rintro ⟨m, q, sub, rfl, hm, hreg⟩
      cases hm with
      | head =>
        obtain ⟨b, hb⟩ := (collectFiles_mem (.dir cs2) q).mpr hreg
        refine ⟨b, ?_⟩
        rw [collectSub]
        exact List.mem_append.mpr (Or.inl (List.mem_map.mpr ⟨(q, b), hb, rfl⟩))
      | tail hm2 =>
        obtain ⟨b, hb⟩ := (collectSub_mem rest (m :: q)).mpr ⟨m, q, sub, rfl, hm2, hreg⟩
        exact ⟨b, by rw [collectSub]; exact List.mem_append.mpr (Or.inr hb)⟩

end

/-- C4: for every directory tree, the archive produced by
`_zip_directory` is deflate-compressed, its entry-name set is exactly
the set of forward-slash-joined relative paths of the regular files
under the tree, and the traversal performs only read accesses. -/
theorem c4_zip_directory_contract (t : FsTree) :
    (zip_directory t).compression = .deflated ∧
    (∀ s : String,
        (∃ e ∈ (zip_directory t).entries, e.1 = s) ↔
        ∃ p, IsRegFile t p ∧ s = String.intercalate "/" p) ∧
    (∀ op ∈ (zipDirectoryTrace t).2, op.isRead = true) := by
  refine ⟨rfl, ?_, ?_⟩
  · intro s
    constructor
    · rintro ⟨e, he, rfl⟩
      simp only [zip_directory] at he
      obtain ⟨pb, hpb, rfl⟩ := List.mem_map.mp he
      exact ⟨pb.1, (collectFiles_mem t pb.1).mp ⟨pb.2, hpb⟩, rfl⟩
    · rintro ⟨p, hreg, rfl⟩
      obtain ⟨b, hb⟩ := (collectFiles_mem t p).mpr hreg
      refine ⟨(String.intercalate "/" p, b), ?_, rfl⟩
      simp only [zip_directory]
      exact List.mem_map.mpr ⟨(p, b), hb, rfl⟩
  · intro op hop
    simp only [zipDirectoryTrace, zipReads] at hop
    obtain ⟨pb, _, rfl⟩ := List.mem_map.mp hop
    rfl

theorem c4_zip_directory_contract_witness :
    (zip_directory (FsTree.dir (.cons "a.md" (.file [1])
        (.cons "img" (.dir (.cons "b.png" (.file [2]) .nil)) .nil)))).compression =
      .deflated ∧
    ∃ e ∈ (zip_directory (FsTree.dir (.cons "a.md" (.file [1])
        (.cons "img" (.dir (.cons "b.png" (.file [2]) .nil)) .nil)))).entries,
      e.1 = "img/b.png" := by
  refine ⟨(c4_zip_directory_contract _).1, ?_⟩
  exact ((c4_zip_directory_contract _).2.1 "img/b.png").mpr
    ⟨["img", "b.png"],
     IsRegFile.there (EntryMem.tail EntryMem.head) (IsRegFile.here EntryMem.head),
     by decide⟩

theorem groupContents_addToGroup (gs : List (String × List JVal)) (k : String)
    (v : JVal) (s : String) :
    groupContents (addToGroup gs k v) s =
      groupContents gs s ++ (if s = k then [v] else []) := by
  induction gs with
  | nil =>
    by_cases h : s = k
    · subst h; simp [addToGroup, groupContents, List.lookup]
    · simp [addToGroup, groupContents, List.lookup, beq_eq_false_iff_ne.mpr h, h]
  | cons kv rest ih =>
    obtain ⟨k2, vs⟩ := kv
    by_cases hk : k2 = k
    · subst hk
      by_cases hs : s = k2
      · subst hs; simp [addToGroup, groupContents, List.lookup]
      · simp [addToGroup, groupContents, List.lookup, beq_eq_false_iff_ne.mpr hs, hs]
    · by_cases hs : s = k2
      · subst hs
        simp [addToGroup, groupContents, List.lookup, hk]
      · simpa [addToGroup, groupContents, List.lookup, hk,
          beq_eq_false_iff_ne.mpr hs] using ih

theorem groupContents_groupLoop :
    ∀ (data : List JVal) (gs : List (String × List JVal)) (s : String),
      groupContents (groupLoop data gs) s =
        groupContents gs s ++ data.filter (fun it => it.isObj && (subjectOf it == s))
  | [], gs, s => by simp [groupLoop]
  | item :: rest, gs, s => by
    cases hobj : item.isObj with
    | false =>
      rw [groupLoop, if_neg (by simp [hobj])]
      rw [groupContents_groupLoop rest gs s]
      simp [hobj]
    | true =>
      rw [groupLoop, if_pos (by simp [hobj])]
      rw [groupContents_groupLoop rest (addToGroup gs (subjectOf item) item) s]
      rw [groupContents_addToGroup]
      by_cases heq : subjectOf item = s
      · subst heq
        simp [hobj]
      · have hne : ¬s = subjectOf item := fun hh => heq hh.symm
        simp [hobj, heq, beq_eq_false_iff_ne.mpr heq, hne]

/-- C5: the `json_to_markdown` grouping pass skips non-dict elements,
groups dict records by their subject label (falling back to `Khác` when
the subject key is absent), emits the groups in case-insensitively
sorted label order, and each group holds exactly the records carrying
its label in original input order. -/
theorem c5_grouping (data : List JVal) :
    List.Sorted subjLe (sortedSubjects data) ∧
    (∀ s, groupContents (groupBySubject data) s =
        data.filter fun it => it.isObj && (subjectOf it == s)) ∧
    (∀ fs : List (String × JVal), fs.lookup "Môn học" = none →
        subjectOf (.obj fs) = "Khác") := by
  refine ⟨List.sorted_insertionSort subjLe _, ?_, ?_⟩
  · intro s
    have h := groupContents_groupLoop data [] s
    simpa [groupBySubject, groupContents, List.lookup] using h
  · intro fs h
    simp [subjectOf, jGetD, h, pyStr]

theorem c5_grouping_witness :
    groupContents (groupBySubject [JVal.num 7, JVal.obj [("Tiêu đề", JVal.str "A")]])
        "Khác" = [JVal.obj [("Tiêu đề", JVal.str "A")]] ∧
    subjectOf (JVal.obj []) = "Khác" := by
  constructor
  · rw [(c5_grouping [JVal.num 7, JVal.obj [("Tiêu đề", JVal.str "A")]]).2.1 "Khác"]
    rfl
  · exact (c5_grouping []).2.2 [] rfl

theorem if_singleton_sublist {α : Type} (c : Bool) (a : α) :
    (if c = true then [a] else []).Sublist [a] := by
  cases c <;> simp

/-- C7: a record whose six optional fields are all empty or absent
emits exactly the top-level title bullet and nothing else; in general
every record's line block starts with the title bullet and its
sub-bullets form a subsequence of the six possible sub-bullets in the
fixed order identifier code, description, hashtags, course id,
Vietnamese names, English names. -/
theorem c7_record_bullets (item : JVal)
    (hcode : codeOf item = "") (hdesc : descOf item = "")
    (hhash : pyTruthy (hashtagsOf item) = false) (hidc : idCourseOf item = "")
    (hvn : vnNamesOf item = []) (hen : enNamesOf item = []) :
    recordLines item = [titleLine item] ∧
    ∀ it : JVal,
      (recordLines it).head? = some (titleLine it) ∧
      List.Sublist (recordLines it).tail
        [idLine it, descLine it, hashtagLine it, idCourseLine it, vnLine it, enLine it] := by
  constructor
  · simp [recordLines, hcode, hdesc, hhash, hidc, hvn, hen]
  · intro it
    constructor
    · rfl
    · have h1 := if_singleton_sublist (codeOf it != "") (idLine it)
      have h2 := if_singleton_sublist (descOf it != "") (descLine it)
      have h3 := if_singleton_sublist (pyTruthy (hashtagsOf it)) (hashtagLine it)
      have h4 := if_singleton_sublist (idCourseOf it != "") (idCourseLine it)
      have h5 := if_singleton_sublist (!(vnNamesOf it).isEmpty) (vnLine it)
      have h6 := if_singleton_sublist (!(enNamesOf it).isEmpty) (enLine it)
      simp only [recordLines, List.singleton_append, List.tail_cons, List.append_assoc]
      exact h1.append (h2.append (h3.append (h4.append (h5.append h6))))

theorem c7_record_bullets_witness :
    recordLines (JVal.obj []) = [titleLine (JVal.obj [])] :=
  (c7_record_bullets (JVal.obj []) rfl rfl rfl rfl rfl rfl).1

/-- C8: when the decoded top-level object has no list-valued `data`
field, `json_to_markdown` raises the fatal input-format `ValueError`,
the `main` pipeline surfaces it as a `valueError`, and that failure is
a different constructor from the `jsonDecodeError` a malformed input
produces, for every message the parser could emit. -/
theorem c8_missing_data_fatal (fs : List (String × JVal)) (p : String)
    (h : ∀ xs, jGet (.obj fs) "data" ≠ .list xs) :
    json_to_markdown (.obj fs) = .error "JSON missing 'data' list" ∧
    mainPipeline true p (.ok (.obj fs)) =
      .error (.valueError "JSON missing 'data' list") ∧
    ∀ m, MainErr.valueError "JSON missing 'data' list" ≠ MainErr.jsonDecodeError m := by
  have hjson : json_to_markdown (.obj fs) = .error "JSON missing 'data' list" := by
    rw [json_to_markdown]
    cases hd : jGet (.obj fs) "data" with
    | list xs => exact absurd hd (h xs)
    | str s => rfl
    | num n => rfl
    | bool b => rfl
    | null => rfl
    | obj fs2 => rfl
  refine ⟨hjson, ?_, ?_⟩
  · simp [mainPipeline, hjson]
  · intro m hne
    cases hne

theorem c8_missing_data_fatal_witness :
    json_to_markdown (.obj []) = .error "JSON missing 'data' list" ∧
    mainPipeline true "input.json" (.ok (.obj [])) =
      .error (.valueError "JSON missing 'data' list") :=
  have h := c8_missing_data_fatal [] "input.json" (fun xs hx => by simp [jGet] at hx)
  ⟨h.1, h.2.1⟩

theorem head?_dropWhile_false {p : Char → Bool} :
    ∀ (l : List Char) (c : Char), (l.dropWhile p).head? = some c → p c = false := by
  intro l
  induction l with
  | nil => intro c hc; simp at hc
  | cons x xs ih =>
    intro c hc
    by_cases hx : p x
    · rw [show (x :: xs).dropWhile p = xs.dropWhile p by simp [List.dropWhile, hx]] at hc
      exact ih c hc
    · rw [show (x :: xs).dropWhile p = x :: xs by simp [List.dropWhile, hx]] at hc
      simp at hc
      subst hc
      simpa using hx

theorem rstripL_last_not_space (l : List Char) (c : Char)
    (hc : (rstripL l).getLast? = some c) : pyIsSpace c = false := by
  unfold rstripL at hc
  rw [List.getLast?_reverse] at hc
  exact head?_dropWhile_false _ c hc

theorem rstripL_ne_nil_of_mem (l : List Char) (c : Char) (hc : c ∈ l)
    (hns : pyIsSpace c = false) : rstripL l ≠ [] := by
  intro h
  unfold rstripL at h
  have h2 : l.reverse.dropWhile pyIsSpace = [] := by
    have := congrArg List.reverse h
    simpa using this
  rw [List.dropWhile_eq_nil_iff] at h2
  have := h2 c (by simpa using hc)
  rw [hns] at this
  exact Bool.noConfusion this

theorem rstripL_append (l1 l2 : List Char) (c : Char) (hc : c ∈ l2)
    (hns : pyIsSpace c = false) : rstripL (l1 ++ l2) = l1 ++ rstripL l2 := by
  unfold rstripL
  rw [List.reverse_append, List.dropWhile_append]
  have hne : l2.reverse.dropWhile pyIsSpace ≠ [] := by
    rw [Ne, List.dropWhile_eq_nil_iff]
    intro hall
    have := hall c (by simpa using hc)
    rw [hns] at this
    exact Bool.noConfusion this
  rw [if_neg (by simpa [List.isEmpty_iff] using hne)]
  simp

theorem mem_keys_of_groupContents_ne_nil (gs : List (String × List JVal)) (s : String)
    (h : groupContents gs s ≠ []) : s ∈ gs.map Prod.fst := by
  induction gs with
  | nil => simp [groupContents, List.lookup] at h
  | cons kv rest ih =>
    obtain ⟨k, vs⟩ := kv
    by_cases hs : s = k
    · subst hs; simp
    · rw [show groupContents ((k, vs) :: rest) s = groupContents rest s by
        simp [groupContents, List.lookup, beq_eq_false_iff_ne.mpr hs]] at h
      simpa using Or.inr (ih h)

/-- C10 counterexample: with an empty `data` list the emitted document
is exactly the heading plus one newline — the heading is not followed
by a blank line, because the final right-strip removes it. -/
theorem c10_empty_data_counterexample :
    json_to_markdown (.obj [("data", .list [])]) = .ok "# Danh sách Video\n" ∧
    List.isPrefixOf "# Danh sách Video\n\n".data "# Danh sách Video\n".data = false := by
  exact ⟨rfl, by decide⟩

theorem joinLines_data_cons (a b : String) (l : List String) :
    (joinLines (a :: b :: l)).data = a.data ++ '\n' :: (joinLines (b :: l)).data := by
  show ((a ++ "\n") ++ joinLines (b :: l)).data = _
  rw [String.data_append, String.data_append]
  simp

theorem joinLines_head_data (a : String) (l : List String) :
    ∃ tl, (joinLines (a :: l)).data = a.data ++ tl := by
  cases l with
  | nil => exact ⟨[], by simp [joinLines]⟩
  | cons b t => exact ⟨'\n' :: (joinLines (b :: t)).data, joinLines_data_cons a b t⟩

theorem out_newline_structure (hdr : String) (body : List String) (c : Char)
    (hc1 : c ∈ hdr.data) (hc2 : pyIsSpace c = false) :
    ∃ s, pyRstrip (joinLines (hdr :: body)) ++ "\n" = s ++ "\n" ∧ s.data ≠ [] ∧
      ∀ c2, s.data.getLast? = some c2 → pyIsSpace c2 = false := by
  refine ⟨pyRstrip (joinLines (hdr :: body)), rfl, ?_, ?_⟩
  · have hmem : c ∈ (joinLines (hdr :: body)).data := by
      obtain ⟨tl, htl⟩ := joinLines_head_data hdr body
      rw [htl]
      exact List.mem_append.mpr (Or.inl hc1)
    exact rstripL_ne_nil_of_mem _ c hmem hc2
  · intro c2 hc2g
    exact rstripL_last_not_space _ c2 hc2g

theorem out_structure (hdr b0 : String) (bs : List String) (c : Char)
    (hc1 : c ∈ b0.data) (hc2 : pyIsSpace c = false) :
    pyRstrip (joinLines (hdr :: "" :: b0 :: bs)) ++ "\n" =
      hdr ++ "\n\n" ++ (pyRstrip (joinLines (b0 :: bs)) ++ "\n") := by
  apply String.ext
  obtain ⟨tl, htl⟩ := joinLines_head_data b0 bs
  have hcX : c ∈ (joinLines (b0 :: bs)).data := by
    rw [htl]
    exact List.mem_append.mpr (Or.inl hc1)
  have hJ : (joinLines (hdr :: "" :: b0 :: bs)).data =
      (hdr.data ++ ['\n', '\n']) ++ (joinLines (b0 :: bs)).data := by
    rw [joinLines_data_cons hdr "" (b0 :: bs), joinLines_data_cons "" b0 bs]
    rw [List.append_assoc]
    rfl
  show rstripL (joinLines (hdr :: "" :: b0 :: bs)).data ++ ['\n'] = _
  rw [hJ, rstripL_append _ _ c hcX hc2]
  show _ = (hdr.data ++ ['\n', '\n']) ++ (rstripL (joinLines (b0 :: bs)).data ++ ['\n'])
  rw [List.append_assoc]

/-- C10 (amended): for every object carrying a list-valued `data`
field the output ends with exactly one trailing newline (it is a
right-stripped text, whose last character before the final newline is
not whitespace, followed by that newline); and whenever at least one
record is a dict — so at least one group is emitted — the output starts
with the level-1 heading built from the escaped message followed by a
blank line.  (With no groups the trailing blank line after the heading
is removed by the final right-strip, as the counterexample shows.) -/
theorem c10_heading_and_trailing (obj : JVal) (ds : List JVal)
    (hdata : jGet obj "data" = .list ds) :
    ∃ out, json_to_markdown obj = .ok out ∧
      (∃ s, out = s ++ "\n" ∧ s.data ≠ [] ∧
        ∀ c, s.data.getLast? = some c → pyIsSpace c = false) ∧
      ((∃ item ∈ ds, item.isObj = true) →
        ∃ rest, out = "# " ++ escapeMdS (messageOf obj) ++ "\n\n" ++ rest) := by
  refine ⟨pyRstrip (joinLines (("# " ++ escapeMdS (messageOf obj)) :: "" ::
      (sortedSubjects ds).flatMap
        (fun s => groupLines s (groupContents (groupBySubject ds) s)))) ++ "\n",
    ?_, ?_, ?_⟩
  · simp only [json_to_markdown, hdata]
  · refine out_newline_structure _ _ '#' ?_ (by decide)
    rw [String.data_append]
    exact List.mem_append.mpr (Or.inl (by decide))
  · rintro ⟨item, hin, hobj⟩
    have hfil : groupContents (groupBySubject ds) (subjectOf item) =
        ds.filter (fun it => it.isObj && (subjectOf it == subjectOf item)) := by
      have h := groupContents_groupLoop ds [] (subjectOf item)
      simpa [groupBySubject, groupContents, List.lookup] using h
    have hmem2 : item ∈ groupContents (groupBySubject ds) (subjectOf item) := by
      rw [hfil]
      exact List.mem_filter.mpr ⟨hin, by simp [hobj]⟩
    have hgc : groupContents (groupBySubject ds) (subjectOf item) ≠ [] := by
      intro hnil
      rw [hnil] at hmem2
      exact absurd hmem2 (List.not_mem_nil item)
    have hkey : subjectOf item ∈ sortedSubjects ds := by
      have h1 := mem_keys_of_groupContents_ne_nil (groupBySubject ds) (subjectOf item) hgc
      exact ((List.perm_insertionSort subjLe _).mem_iff).mpr h1
    obtain ⟨k0, ks, hsp⟩ := List.exists_cons_of_ne_nil (List.ne_nil_of_mem hkey)
    rw [hsp]
    refine ⟨pyRstrip (joinLines (("## Môn học: " ++ escapeMdS k0) ::
        "" :: ((groupContents (groupBySubject ds) k0).flatMap recordLines ++ [""] ++
          ks.flatMap (fun s => groupLines s (groupContents (groupBySubject ds) s))))) ++ "\n",
      ?_⟩
    exact out_structure ("# " ++ escapeMdS (messageOf obj))
      ("## Môn học: " ++ escapeMdS k0)
      ("" :: ((groupContents (groupBySubject ds) k0).flatMap recordLines ++ [""] ++
        ks.flatMap (fun s => groupLines s (groupContents (groupBySubject ds) s))))
      '#'
      (by rw [String.data_append]; exact List.mem_append.mpr (Or.inl (by decide)))
      (by decide)

theorem c10_heading_and_trailing_witness :
    ∃ out, json_to_markdown (.obj [("data", .list [JVal.obj []])]) = .ok out ∧
      (∃ s, out = s ++ "\n" ∧ s.data ≠ [] ∧
        ∀ c, s.data.getLast? = some c → pyIsSpace c = false) ∧
      ((∃ item ∈ [JVal.obj []], item.isObj = true) →
        ∃ rest, out = "# " ++ escapeMdS (messageOf (.obj [("data", .list [JVal.obj []])])) ++
          "\n\n" ++ rest) :=
  c10_heading_and_trailing (.obj [("data", .list [JVal.obj []])]) [JVal.obj []] rfl
